import Mathlib

/-!
Shallow embedding of the todo-app client core (laguileraab/todo-app):
the ordered todo list reconciler (`src/hooks/useTodos.ts`, the TodoList
component), the CSV export (`exportToExcel` in the TodoList component)
and the appointment booking-conflict checker
(`src/hooks/useAnalytics.ts` / `useAppointments`).

Machine times (JavaScript `Date.getTime()` values) are modelled as `Int`
milliseconds; record identifiers as `Nat`; the tables of the backing store as
Lean lists; fallible store queries as `Except String`.
-/

/-- Task record, from the `Todo` type in `src/lib/supabase.ts`:
`id` (SERIAL), `user_id`, `text`, `completed`, `position`, `created_at`.
`created_at` is an ISO timestamp in the source; it is modelled as an
integer time value so that the store ORDER BY on created_at is ordinary
integer comparison. -/
structure Todo where
  id : Nat
  user_id : String
  text : String
  completed : Bool
  position : Nat
  created_at : Int
deriving DecidableEq

/-- One row of the batch written by `reorderTodos`
(`src/hooks/useTodos.ts` lines 328-334): only `id`, `user_id`, `text`,
`completed` and the rewritten `position` are sent. -/
structure TodoUpdate where
  id : Nat
  user_id : String
  text : String
  completed : Bool
  position : Nat
deriving DecidableEq

/-- Helper for the index-carrying map of `reorderTodos`: the batch rows
for a tail of the new order, with the running index starting at `i`. -/
def reorderUpdatesFrom (uid : String) (i : Nat) : List Todo → List TodoUpdate
  | [] => []
  | t :: ts =>
      { id := t.id, user_id := uid, text := t.text,
        completed := t.completed, position := i } :: reorderUpdatesFrom uid (i + 1) ts

/-- The position-rewrite batch prepared by `reorderTodos`
(`src/hooks/useTodos.ts` lines 328-334): every record of the new display
order is written back with `position := index`. -/
def reorderUpdates (uid : String) (newOrder : List Todo) : List TodoUpdate :=
  reorderUpdatesFrom uid 0 newOrder

/-- Modelled from the spec: the drag-end reorder used by `handleDragEnd`
("the view is spliced (remove-then-insert) to produce the new order");
the `arrayMove` helper itself comes from the `@dnd-kit/sortable` library
and is not part of the sources of the repository. Remove the element at
index `i`, then insert it at index `j`. -/
def arrayMove {α : Type} (l : List α) (i j : Nat) : List α :=
  match l[i]? with
  | none => l
  | some x => (l.eraseIdx i).insertIdx j x

/-- Push events received by the `postgres_changes` handler
(`src/hooks/useTodos.ts` lines 105-122): INSERT and UPDATE carry the new
row, DELETE carries the id of the old row. -/
inductive PushEvent where
  | insert (row : Todo)
  | update (row : Todo)
  | delete (oldId : Nat)

/-- The `postgres_changes` handler (`src/hooks/useTodos.ts` lines
108-121): INSERT prepends the new row, UPDATE replaces the row with a
matching id in place, DELETE removes the row with a matching id. -/
def applyPush (todos : List Todo) : PushEvent → List Todo
  | .insert row => row :: todos
  | .update row => todos.map (fun todo => if todo.id = row.id then row else todo)
  | .delete oldId => todos.filter (fun todo => todo.id ≠ oldId)

/-- A CSV cell of `exportToExcel`: `todo.id` is a number, the other three
cells are strings. -/
inductive Cell where
  | num (n : Nat)
  | str (s : String)
deriving DecidableEq

/-- A double-quote character as a string. -/
def dq : String := "\""

/-- Two double quotes, the CSV escape of one embedded double quote. -/
def dqdq : String := "\"\""

/-- A newline as a string, the row separator of the CSV text. -/
def nl : String := "\n"

/-- A comma as a string, the cell separator of the CSV text. -/
def comma : String := ","

/-- Character containment in a string (the JavaScript `includes` test on
a one-character needle), via the character list of the string. -/
def hasChar (s : String) (c : Char) : Bool :=
  s.data.contains c

/-- The cell serialization of `exportToExcel` (TodoList component): a
string cell that contains a comma, a newline or a double quote is
wrapped in double quotes after doubling each embedded double quote;
any other string cell, and every number cell, is emitted verbatim. The
source tests the three characters in the order comma, newline, quote. -/
def escapeCell : Cell → String
  | .num n => toString n
  | .str s =>
      if hasChar s ',' || hasChar s '\n' || hasChar s '"' then
        dq ++ s.replace dq dqdq ++ dq
      else s

/-- The header row of `exportToExcel`: ID, Task, Status, Created At. -/
def csvHeaders : List Cell :=
  [.str ("ID"), .str ("Task"), .str ("Status"), .str ("Created At")]

/-- One data row of `exportToExcel`: id, text, completed-status label,
formatted creation date. The locale date formatting of the browser
(`new Date(...).toLocaleString()`) is passed in as `fmt`. -/
def csvRow (fmt : Int → String) (todo : Todo) : List Cell :=
  [.num todo.id, .str todo.text,
   .str (if todo.completed then "Completed" else "Pending"),
   .str (fmt todo.created_at)]

/-- The CSV text built by `exportToExcel`: header row plus one row per
record, cells escaped and joined by commas, rows joined by newlines. -/
def csvContent (fmt : Int → String) (todos : List Todo) : String :=
  String.intercalate nl
    ((csvHeaders :: todos.map (csvRow fmt)).map
      (fun row => String.intercalate comma (row.map escapeCell)))

/-- `exportToExcel` (TodoList component, lines 608-649 of that file):
`if (todos.length === 0) return;` — on an empty list the function
returns without producing any file; otherwise the CSV text is offered as
a download. -/
def exportToExcel (fmt : Int → String) (todos : List Todo) : Option String :=
  if todos.length = 0 then none
  else some (csvContent fmt todos)

/-- The fetch ordering of `fetchTodos` (`src/hooks/useTodos.ts` lines
33-38): the store returns the rows of the user ordered by `position`
ascending, then `created_at` descending as a tie-break. -/
def fetchLE (a b : Todo) : Bool :=
  a.position < b.position ||
    (a.position = b.position && b.created_at ≤ a.created_at)

/-- Insert a row into an already `fetchLE`-ordered list (model of the
ORDER BY of the store). -/
def orderedInsert : Todo → List Todo → List Todo
  | t, [] => [t]
  | t, u :: us => if fetchLE t u then t :: u :: us else u :: orderedInsert t us

/-- The view produced by `fetchTodos` for user `uid`: the rows of the
store whose user id equals `uid`, ordered by `position` ascending then
`created_at` descending. -/
def fetchView (uid : String) (store : List Todo) : List Todo :=
  (store.filter (fun t => t.user_id = uid)).foldr orderedInsert []

/-- The client/store pair the toggle step acts on: `view` is the
in-memory `todos` state, `store` the table of the backing store. -/
structure SyncState where
  view : List Todo
  store : List Todo
deriving DecidableEq

/-- Outcome of the store write issued by a mutation. -/
inductive WriteOutcome where
  | ok
  | fail

/-- `toggleTodo` (`src/hooks/useTodos.ts` lines 202-238): the view is
updated optimistically, then the store write runs, updating the
completed flag of the row with the given id and user id; on success the
optimistic view stands and the store row is updated; on a write error
the handler calls `fetchTodos`, which replaces the view with a fresh
fetch of the unchanged store. -/
def toggleTodo (uid : String) (id : Nat) (completed : Bool)
    (outcome : WriteOutcome) (s : SyncState) : SyncState :=
  let optimistic :=
    s.view.map (fun t => if t.id = id then { t with completed := completed } else t)
  match outcome with
  | .ok =>
      { view := optimistic,
        store := s.store.map (fun t =>
          if t.id = id && t.user_id = uid then { t with completed := completed } else t) }
  | .fail =>
      { view := fetchView uid s.store, store := s.store }

/-- Appointment status enum (`pending | confirmed | completed |
cancelled`). -/
inductive ApptStatus where
  | pending
  | confirmed
  | completed
  | cancelled
deriving DecidableEq

/-- Appointment record (`appointments` table): times are
`Date.getTime()` millisecond values. -/
structure Appt where
  id : Nat
  client_id : String
  title : String
  start_time : Int
  end_time : Int
  status : ApptStatus
deriving DecidableEq

/-- Two hours in milliseconds, `2 * 60 * 60 * 1000`. -/
def twoHoursMs : Int := 2 * 60 * 60 * 1000

/-- The row filter of the `respectsTimeGap` query
(`src/hooks/useAnalytics.ts` lines 289-298): the PostgREST disjunction
start_time.gte.twoHoursBefore OR end_time.lte.twoHoursAfter, conjoined
with status not equal to cancelled and, when an exclusion id is given,
with id not equal to excludeAppointmentId. -/
def gapQueryMatch (startT endT : Int) (exclude : Option Nat) (a : Appt) : Bool :=
  (startT - twoHoursMs ≤ a.start_time || a.end_time ≤ endT + twoHoursMs)
    && !(a.status = .cancelled)
    && (match exclude with
        | some i => a.id ≠ i
        | none => true)

/-- `respectsTimeGap` (`src/hooks/useAnalytics.ts` lines 278-310): run
the query above against the appointments table; accept iff it returns
no rows (`data.length === 0`); on a query error the `catch` returns
`false`. -/
def respectsTimeGap (table : Except String (List Appt))
    (startT endT : Int) (exclude : Option Nat) : Bool :=
  match table with
  | .error _ => false
  | .ok rows => (rows.filter (gapQueryMatch startT endT exclude)).length = 0

/-- The gap rule of the spec (section 4.2), as a decidable predicate: every existing
non-cancelled, non-excluded interval is at least the buffer away from
the candidate on one side: `candidate_end ≤ existing_start − buffer` OR
`candidate_start ≥ existing_end + buffer`. -/
def gapRuleOK (rows : List Appt) (startT endT : Int) (exclude : Option Nat) : Bool :=
  rows.all (fun a =>
    decide (a.status = .cancelled) || decide (exclude = some a.id)
      || decide (endT ≤ a.start_time - twoHoursMs)
      || decide (a.end_time + twoHoursMs ≤ startT))

/-- `createAppointment` (`src/hooks/useAnalytics.ts` lines 313-347),
reduced to its conflict gate: if `respectsTimeGap` returns false the
function throws and the `catch` returns `null`; otherwise the insert
proceeds and the new appointment is returned. -/
def createAppointment (table : Except String (List Appt)) (a : Appt) : Option Appt :=
  if respectsTimeGap table a.start_time a.end_time none then some a else none

/-- `updateAppointment` (`src/hooks/useAnalytics.ts` lines 350-402),
reduced to its conflict gate when a start or end time changes: the
candidate interval is checked with the own id of the appointment excluded; a
failed check makes the function throw and return `null`. -/
def updateAppointmentGate (table : Except String (List Appt))
    (id : Nat) (startT endT : Int) : Bool :=
  respectsTimeGap table startT endT (some id)

/-- The per-interval slot filter of `getAvailableTimeSlots`
(`src/hooks/useAnalytics.ts` lines 596-610): a slot survives iff for
every booked interval `slotEnd <= bookedStart - twoHours ||
slotStart >= bookedEnd + twoHours`. -/
def slotClear (booked : List (Int × Int)) (slotStart slotEnd : Int) : Bool :=
  booked.all (fun b => slotEnd ≤ b.1 - twoHoursMs || b.2 + twoHoursMs ≤ slotStart)

/-- The slot generation loop of `getAvailableTimeSlots`
(`src/hooks/useAnalytics.ts` lines 556-569): for each hour 9..16 and
minute 0/30 of the selected day, a 30-minute slot, kept only when its
start is strictly in the future (`start > new Date()`). `day` is the
midnight of the selected day as a millisecond time value. -/
def allSlots (day now : Int) : List (Int × Int) :=
  ((List.range 8).flatMap (fun h : Nat =>
    (List.range 2).map (fun m : Nat =>
      (day + (9 + (h : Int)) * 3600000 + (m : Int) * 1800000,
       day + (9 + (h : Int)) * 3600000 + (m : Int) * 1800000 + 1800000)))).filter
    (fun p => now < p.1)

/-- `getAvailableTimeSlots` (`src/hooks/useAnalytics.ts` lines 541-618):
generate the future slots of the day; query its non-cancelled
appointments (`start_time ≥ dayStart`, `end_time ≤ dayEnd`,
`status ≠ cancelled`); if none exist return all slots, else keep the
slots that pass `slotClear` against the booked intervals. -/
def getAvailableTimeSlots (day now : Int) (table : List Appt) : List (Int × Int) :=
  let slots := allSlots day now
  let dayAppts := table.filter (fun a =>
    day ≤ a.start_time && a.end_time ≤ day + 86399999 && !(a.status = .cancelled))
  if dayAppts.isEmpty then slots
  else
    let booked := dayAppts.map (fun a => (a.start_time, a.end_time))
    slots.filter (fun p => slotClear booked p.1 p.2)

/-- Spec-side description of the slot grid of a day: the sixteen 30-minute
slots of the 9:00-17:00 business window, in chronological order. -/
def slotGrid (day : Int) : List (Int × Int) :=
  (List.range 16).map (fun k : Nat =>
    (day + 32400000 + 1800000 * (k : Int), day + 34200000 + 1800000 * (k : Int)))

/-- Spec-side escape rule (section 6 of the spec): a string field
containing a comma, double quote, or newline is wrapped in double quotes
with embedded double quotes doubled. -/
def specEscape (s : String) : String :=
  if hasChar s ',' || hasChar s '"' || hasChar s '\n' then
    dq ++ s.replace dq dqdq ++ dq
  else s

/-- Spec-side header line of the export: ID, Task, Status, Created At. -/
def specHeader : String := "ID,Task,Status,Created At"

/-- Spec-side row of the export: identifier, text, status label and
creation timestamp of one record, each escaped per `specEscape`, joined
by commas. -/
def specLine (fmt : Int → String) (t : Todo) : String :=
  String.intercalate comma
    [toString t.id, specEscape t.text,
     specEscape (if t.completed then "Completed" else "Pending"),
     specEscape (fmt t.created_at)]

/-- Concrete pending appointment ten days (864000000 ms) after the
epoch, thirty minutes long. -/
def farAppt : Appt := ⟨1, ("client-a"), ("checkup"), 864000000, 865800000, .pending⟩

/-- The two booked intervals of testable property 4 of the spec, as
millisecond offsets into one day: 10:00-10:30 and 14:00-14:30. -/
def bookedDay : List (Int × Int) := [(36000000, 37800000), (50400000, 52200000)]

/-- A concrete date formatter standing in for the locale formatting of
the browser. -/
def demoFmt : Int → String := fun n => toString n

/-- A concrete task record. -/
def todoA : Todo :=
  { id := 1, user_id := ("u1"), text := ("milk"), completed := false,
    position := 0, created_at := 100 }

/-- A second concrete task record of the same owner. -/
def todoB : Todo :=
  { id := 2, user_id := ("u1"), text := ("eggs"), completed := true,
    position := 1, created_at := 90 }

/-- A third concrete task record of the same owner. -/
def todoC : Todo :=
  { id := 3, user_id := ("u1"), text := ("bread"), completed := false,
    position := 2, created_at := 80 }

/-- Helper: the positions written by the reorder batch starting at index
`i` are the consecutive integers `i, i+1, …`. -/
theorem reorderUpdatesFrom_map_position (uid : String) (l : List Todo) (i : Nat) :
    (reorderUpdatesFrom uid i l).map TodoUpdate.position = List.range' i l.length := by
  induction l generalizing i with
  | nil => rfl
  | cons t ts ih => simp [reorderUpdatesFrom, List.range', ih]

/-- Helper: the reorder batch carries the ids of the new order, in
order. -/
theorem reorderUpdatesFrom_map_id (uid : String) (l : List Todo) (i : Nat) :
    (reorderUpdatesFrom uid i l).map TodoUpdate.id = l.map Todo.id := by
  induction l generalizing i with
  | nil => rfl
  | cons t ts ih => simp [reorderUpdatesFrom, ih]

/-- Helper: every row of the reorder batch belongs to the reordering
user. -/
theorem reorderUpdatesFrom_user_id (uid : String) (l : List Todo) (i : Nat) :
    ∀ u ∈ reorderUpdatesFrom uid i l, u.user_id = uid := by
  induction l generalizing i with
  | nil => intro u hu; cases hu
  | cons t ts ih =>
      intro u hu
      rcases List.mem_cons.mp hu with h | h
      · simp [h]
      · exact ih (i + 1) u h

/-- Helper: re-inserting the element removed at index `i` back at index
`i` restores the list. -/
theorem insertIdx_getElem_eraseIdx : ∀ (l : List Todo) (i : Nat) (h : i < l.length),
    (l.eraseIdx i).insertIdx i l[i] = l
  | _ :: _, 0, _ => rfl
  | a :: l, i + 1, h =>
      congrArg (a :: ·) (insertIdx_getElem_eraseIdx l i (Nat.lt_of_succ_lt_succ h))

/-- Helper: the source escape and the escape described by the spec agree
on every string cell (the two only differ in the order the three special
characters are tested). -/
theorem escapeCell_str (s : String) : escapeCell (.str s) = specEscape s := by
  show (if hasChar s ',' || hasChar s '\n' || hasChar s '"' then
          dq ++ s.replace dq dqdq ++ dq else s) = _
  unfold specEscape
  have h : (hasChar s ',' || hasChar s '\n' || hasChar s '"')
      = (hasChar s ',' || hasChar s '"' || hasChar s '\n') := by
    cases hasChar s ',' <;> cases hasChar s '\n' <;> cases hasChar s '"' <;> rfl
  rw [h]

/-- Helper: the slot loop of `getAvailableTimeSlots` produces exactly
the 16-slot business-hours grid restricted to slots starting strictly
after `now`. -/
theorem allSlots_eq_grid (day now : Int) :
    allSlots day now = (slotGrid day).filter (fun p => now < p.1) := by
  have h8 : List.range 8 = [0, 1, 2, 3, 4, 5, 6, 7] := rfl
  have h16 : List.range 16 = [0, 1, 2, 3, 4, 5, 6, 7, 8, 9, 10, 11, 12, 13, 14, 15] := rfl
  have h2 : List.range 2 = [0, 1] := rfl
  have hset : ((List.range 8).flatMap (fun h : Nat =>
      (List.range 2).map (fun m : Nat =>
        (day + (9 + (h : Int)) * 3600000 + (m : Int) * 1800000,
         day + (9 + (h : Int)) * 3600000 + (m : Int) * 1800000 + 1800000))))
      = (List.range 16).map (fun k : Nat =>
        (day + 32400000 + 1800000 * (k : Int), day + 34200000 + 1800000 * (k : Int))) := by
    rw [h8, h16]
    simp only [h2, List.flatMap_cons, List.flatMap_nil, List.map_cons, List.map_nil,
      List.append_nil, List.cons_append, List.nil_append]
    norm_num
    omega
  unfold allSlots slotGrid
  rw [hset]

/-- C1: at the concrete candidate interval 00:00-00:30 with a single
pending appointment ten days later, the gap rule of the spec accepts the
candidate, but `respectsTimeGap` rejects it: the PostgREST disjunction
it queries with (start_time after the lower bound OR end_time before the
upper bound) matches the distant appointment, so the conflict check is
not equivalent to the buffer rule the claim (and the comments in the
source) state. -/
theorem respectsTimeGap_rejects_distant_appointment :
    respectsTimeGap (.ok [farAppt]) 0 1800000 none = false ∧
    gapRuleOK [farAppt] 0 1800000 none = true := by
  decide

/-- C2 counterexample: with bookings 10:00-10:30 and 14:00-14:30 and the
2-hour buffer, the slot filter of `getAvailableTimeSlots` rejects the
candidate 12:00-12:30 (it ends after 10:00 minus 2h and starts before
10:30 plus 2h), contradicting the claim that this candidate is
accepted. -/
theorem slotClear_rejects_noon_slot :
    slotClear bookedDay 43200000 45000000 = false := by
  decide

/-- C2 amended: with bookings 10:00-10:30 and 14:00-14:30 and the 2-hour
buffer, the per-interval slot filter rejects 12:00-12:30, rejects
11:59-12:29, accepts the 30-minute candidate starting at 16:30, and
rejects the one starting at 16:00. -/
theorem slotClear_concrete_examples :
    slotClear bookedDay 43200000 45000000 = false ∧
    slotClear bookedDay 43140000 44940000 = false ∧
    slotClear bookedDay 59400000 61200000 = true ∧
    slotClear bookedDay 57600000 59400000 = false := by
  decide

/-- C3 counterexample: applied to an empty record set, `exportToExcel`
returns no file at all (the function returns before building any
content), not a file holding only the header row. -/
theorem exportToExcel_empty_counterexample :
    exportToExcel demoFmt [] = none := rfl

/-- C3 amended: applying the export operation to an empty record set
produces no file at all, whatever date formatter is in effect. -/
theorem exportToExcel_empty_produces_no_file (fmt : Int → String) :
    exportToExcel fmt [] = none := rfl

/-- C4: the batch written by `reorderTodos` assigns the positions
0, 1, …, N−1 exactly, in display order (row k of the batch is record k
of the new order and gets position k); hence the positions are a dense
sequence starting at 0, pairwise distinct, and all rows belong to the
one owner. -/
theorem reorderTodos_positions_dense (uid : String) (newOrder : List Todo) :
    (reorderUpdates uid newOrder).map TodoUpdate.position = List.range newOrder.length ∧
    ((reorderUpdates uid newOrder).map TodoUpdate.position).Nodup ∧
    (reorderUpdates uid newOrder).map TodoUpdate.id = newOrder.map Todo.id ∧
    (∀ u ∈ reorderUpdates uid newOrder, u.user_id = uid) := by
  have h1 : (reorderUpdates uid newOrder).map TodoUpdate.position
      = List.range newOrder.length := by
    rw [reorderUpdates, reorderUpdatesFrom_map_position, List.range_eq_range']
  exact ⟨h1, h1 ▸ List.nodup_range _, reorderUpdatesFrom_map_id uid newOrder 0,
    reorderUpdatesFrom_user_id uid newOrder 0⟩

/-- C5: moving the record at index `i` to index `j` by splice
remove-then-insert and then moving it back from `j` to `i` restores the
original list, for any valid pair of indices. -/
theorem arrayMove_roundtrip (l : List Todo) (i j : Nat)
    (hi : i < l.length) (hj : j < l.length) :
    arrayMove (arrayMove l i j) j i = l := by
  have hx : l[i]? = some l[i] := List.getElem?_eq_getElem hi
  have hel : (l.eraseIdx i).length = l.length - 1 := by
    rw [List.length_eraseIdx]
    simp [hi]
  have hj1 : j ≤ (l.eraseIdx i).length := by omega
  have hmid : arrayMove l i j = (l.eraseIdx i).insertIdx j l[i] := by
    rw [arrayMove, hx]
  have hjm : j < ((l.eraseIdx i).insertIdx j l[i]).length := by
    rw [List.length_insertIdx _ _ hj1]
    omega
  have hgetm : ((l.eraseIdx i).insertIdx j l[i])[j]? = some l[i] := by
    rw [List.getElem?_eq_getElem hjm]
    exact congrArg some (List.getElem_insertIdx_self (l.eraseIdx i) (l[i]) j hj1)
  rw [hmid, arrayMove, hgetm, List.eraseIdx_insertIdx]
  exact insertIdx_getElem_eraseIdx l i hi

/-- C5 witness: the round trip at the concrete three-record list, moving
index 0 to index 2 and back. -/
theorem arrayMove_roundtrip_witness :
    arrayMove (arrayMove [todoA, todoB, todoC] 0 2) 2 0 = [todoA, todoB, todoC] :=
  arrayMove_roundtrip [todoA, todoB, todoC] 0 2 (by decide) (by decide)

/-- C6: when the store write of a toggle fails, the automatic reload
leaves the view equal to the pre-toggle view (the store is unchanged by
the failed write and the view is replaced by a fresh fetch of it), for
any state whose view is in sync with the store. -/
theorem toggleTodo_failure_rolls_back (uid : String) (id : Nat) (c : Bool)
    (s : SyncState) (hsync : s.view = fetchView uid s.store) :
    (toggleTodo uid id c .fail s).view = s.view ∧
    (toggleTodo uid id c .fail s).store = s.store :=
  ⟨by rw [hsync]; rfl, rfl⟩

/-- C6 witness: the rollback at a concrete two-record synced state. -/
theorem toggleTodo_failure_rolls_back_witness :
    (toggleTodo ("u1") 1 true .fail ⟨fetchView ("u1") [todoA, todoB], [todoA, todoB]⟩).view
      = fetchView ("u1") [todoA, todoB] ∧
    (toggleTodo ("u1") 1 true .fail ⟨fetchView ("u1") [todoA, todoB], [todoA, todoB]⟩).store
      = [todoA, todoB] :=
  toggleTodo_failure_rolls_back ("u1") 1 true ⟨fetchView ("u1") [todoA, todoB], [todoA, todoB]⟩ rfl

/-- C7: on a day with zero non-cancelled appointments,
`getAvailableTimeSlots` returns exactly the 30-minute slots of the
9:00-17:00 business window whose start is strictly after now, in
chronological order (strictly increasing start times). -/
theorem getAvailableTimeSlots_empty_day (day now : Int) (table : List Appt)
    (h : ∀ a ∈ table, day ≤ a.start_time → a.end_time ≤ day + 86399999 →
      a.status = ApptStatus.cancelled) :
    getAvailableTimeSlots day now table = (slotGrid day).filter (fun p => now < p.1) ∧
    (∀ p, p ∈ getAvailableTimeSlots day now table ↔ p ∈ slotGrid day ∧ now < p.1) ∧
    (getAvailableTimeSlots day now table).Pairwise (fun p q => p.1 < q.1) := by
  have hd : table.filter (fun a =>
      day ≤ a.start_time && a.end_time ≤ day + 86399999
        && !(a.status = ApptStatus.cancelled)) = [] := by
    rw [List.filter_eq_nil_iff]
    intro a ha
    by_cases h1 : day ≤ a.start_time
    · by_cases h2 : a.end_time ≤ day + 86399999
      · simp [h1, h2, h a ha h1 h2]
      · simp [h2]
    · simp [h1]
  have hmain : getAvailableTimeSlots day now table
      = (slotGrid day).filter (fun p => now < p.1) := by
    unfold getAvailableTimeSlots
    rw [hd]
    simp [allSlots_eq_grid]
  refine ⟨hmain, fun p => ?_, ?_⟩
  · rw [hmain, List.mem_filter]
    simp
  · rw [hmain]
    have hgrid : (slotGrid day).Pairwise (fun p q => p.1 < q.1) := by
      unfold slotGrid
      rw [List.pairwise_map]
      refine (List.pairwise_lt_range 16).imp ?_
      intro a b hab
      simp only
      omega
    exact hgrid.filter _

/-- C7 witness: on an empty table, with now strictly before the day, the
result is the full 16-slot grid. -/
theorem getAvailableTimeSlots_empty_day_witness :
    getAvailableTimeSlots 0 (-1) [] = slotGrid 0 :=
  ((getAvailableTimeSlots_empty_day 0 (-1) [] (by simp)).1).trans (by decide)

/-- C8: a pushed update or delete event whose row identifier occurs
nowhere in the current view leaves the view unchanged. -/
theorem applyPush_unknown_id_noop (view : List Todo) (row : Todo)
    (h : ∀ t ∈ view, t.id ≠ row.id) :
    applyPush view (.update row) = view ∧ applyPush view (.delete row.id) = view := by
  constructor
  · show view.map _ = view
    rw [List.map_congr_left (g := id) (fun t ht => by simp [h t ht]), List.map_id]
  · show view.filter _ = view
    exact List.filter_eq_self.mpr (fun t ht => by simpa using h t ht)

/-- C8 witness: a one-record view and an event for a different id. -/
theorem applyPush_unknown_id_noop_witness :
    applyPush [todoA] (.update todoB) = [todoA] ∧
    applyPush [todoA] (.delete todoB.id) = [todoA] :=
  applyPush_unknown_id_noop [todoA] todoB (by decide)

/-- C9: the export text is the header line followed by one line per
record holding identifier, text, status label and creation timestamp,
each string field escaped by quote-wrapping and quote-doubling exactly
when it contains a comma, double quote or newline; the transform is a
pure function of the record list (and the date formatter). -/
theorem csvContent_header_and_rows (fmt : Int → String) (todos : List Todo) :
    csvContent fmt todos
      = String.intercalate nl (specHeader :: todos.map (specLine fmt)) := by
  unfold csvContent
  rw [List.map_cons, List.map_map]
  have hhead : String.intercalate comma (csvHeaders.map escapeCell) = specHeader := by
    decide
  have hrow : ∀ t : Todo,
      ((fun row => String.intercalate comma (row.map escapeCell)) ∘ csvRow fmt) t
        = specLine fmt t := by
    intro t
    simp only [Function.comp, csvRow, List.map_cons, List.map_nil, escapeCell_str]
    rfl
  rw [hhead, List.map_congr_left (fun t _ => hrow t)]

/-- C10: when the appointment query fails, `respectsTimeGap` returns
false, so both the create gate and the update gate reject the candidate:
a store error can never let a booking through. -/
theorem respectsTimeGap_fail_closed (msg : String) (startT endT : Int)
    (x : Option Nat) (a : Appt) (i : Nat) :
    respectsTimeGap (.error msg) startT endT x = false ∧
    createAppointment (.error msg) a = none ∧
    updateAppointmentGate (.error msg) i startT endT = false := by
  refine ⟨rfl, ?_, rfl⟩
  simp [createAppointment, respectsTimeGap]
